import Mathlib

/-
  Verification development for the Solar Defense tower-defense game.

  Shallow embedding conventions:
  * JS numbers are idealized as exact rationals (ℚ).
  * `a.distanceTo(b)` in the source is `Real.sqrt (dist2 a b)`.  Every use of a
    distance in the embedded code is a comparison against a non-negative bound
    or against another distance, so each comparison is expressed in the
    equivalent sqrt-free squared form:
      sqrt d < r  ↔  0 ≤ r ∧ d < r²      (for d ≥ 0)
      sqrt d ≤ r  ↔  0 ≤ r ∧ d ≤ r²
      sqrt d < sqrt d'  ↔  d < d'
    This keeps every definition computable and every concrete instance
    decidable.
  * JS `Infinity` sentinels (initial best distances) are embedded as `Option`
    accumulators, `none` playing Infinity.
  * Mutation of records/arrays is embedded as explicit state passing.
-/

namespace SolarDefense

/-- Vector in 3D over exact rationals (idealizing `THREE.Vector3`). -/
structure Vec3 where
  x : ℚ
  y : ℚ
  z : ℚ
deriving DecidableEq, Repr

def Vec3.zero : Vec3 := ⟨0, 0, 0⟩

def Vec3.add (a b : Vec3) : Vec3 := ⟨a.x + b.x, a.y + b.y, a.z + b.z⟩

def Vec3.sub (a b : Vec3) : Vec3 := ⟨a.x - b.x, a.y - b.y, a.z - b.z⟩

def Vec3.smul (t : ℚ) (v : Vec3) : Vec3 := ⟨t * v.x, t * v.y, t * v.z⟩

def Vec3.dot (a b : Vec3) : ℚ := a.x * b.x + a.y * b.y + a.z * b.z

/-- Squared length: `v.length()` in the source is `Real.sqrt v.len2`. -/
def Vec3.len2 (v : Vec3) : ℚ := v.x ^ 2 + v.y ^ 2 + v.z ^ 2

/-- Squared distance: `a.distanceTo(b)` in the source is `Real.sqrt (dist2 a b)`. -/
def dist2 (a b : Vec3) : ℚ := (a.sub b).len2

/-- Embeds `a.distanceTo(b) < r` in exact sqrt-free form (both sides are `False`
    when `r < 0`, since a real sqrt is non-negative). -/
def distLt (a b : Vec3) (r : ℚ) : Prop := 0 ≤ r ∧ dist2 a b < r ^ 2

/-- Embeds `a.distanceTo(b) <= r` in exact sqrt-free form. -/
def distLe (a b : Vec3) (r : ℚ) : Prop := 0 ≤ r ∧ dist2 a b ≤ r ^ 2

instance (a b : Vec3) (r : ℚ) : Decidable (distLt a b r) := by
  unfold distLt; infer_instance

instance (a b : Vec3) (r : ℚ) : Decidable (distLe a b r) := by
  unfold distLe; infer_instance

/-- Enemy record for the entity-class variant (`src/js/entities.js`); only the
    fields read by `Enemy.takeDamage` are kept. -/
structure EnemyE where
  health : ℚ
  armor : ℚ
deriving DecidableEq, Repr

/-- Embeds `Enemy.takeDamage` from `src/js/entities.js` (lines 481-492):
    `actualDamage = Math.max(1, amount - this.armor); this.health -= actualDamage;`
    then the enemy is destroyed (returning `true`) when health ≤ 0.
    The destroy/credit side effects are modelled at the registry level
    elsewhere; here we return the updated record and the destroyed flag. -/
def takeDamageEntities (e : EnemyE) (amount : ℚ) : EnemyE × Bool :=
  let actualDamage := max 1 (amount - e.armor)
  let e2 : EnemyE := { e with health := e.health - actualDamage }
  if e2.health ≤ 0 then (e2, true) else (e2, false)

/-- Enemy record for the 2D-prototype variant (`src/js/enemy.js`). -/
structure EnemyJS where
  health : ℚ
  armor : ℚ
deriving DecidableEq, Repr

/-- Embeds `Enemy.takeDamage` from `src/js/enemy.js` (lines 303-311):
    `damageAfterArmor = Math.max(0, amount - this.armor); this.health -= damageAfterArmor;`
    (note `max 0`, not `max 1`). -/
def takeDamageEnemyJs (e : EnemyJS) (amount : ℚ) : EnemyJS :=
  let damageAfterArmor := max 0 (amount - e.armor)
  { e with health := e.health - damageAfterArmor }

/-- Enemy record of the modular variant, as consumed by the projectile system
    (`src/unnamed/part_005`): `mesh.position`, `mesh.scale.x` (the hit radius is
    `scale.x * 1.5`), liveness, health/armor and the kill rewards. -/
structure EnemyP where
  position : Vec3
  scaleX : ℚ
  health : ℚ
  armor : ℚ
  alive : Bool
  creditValue : ℚ
  pointValue : ℚ
deriving DecidableEq, Repr

/-- Modelled from the spec: the modular `enemy.js` — from which
    `src/unnamed/part_005` imports `damageEnemy` — is not among the source
    files (only its 2D-prototype namesake `src/js/enemy.js` is).  Per the spec:
    `effectiveDamage = max(1, rawDamage - enemyArmor)` (armor is flat damage
    reduction with a guaranteed minimum of 1 damage per hit); if the enemy's
    health drops to ≤ 0 it is marked destroyed and a kill is reported.
    Returns the updated enemy and whether it was destroyed. -/
def damageEnemy (e : EnemyP) (damage : ℚ) : EnemyP × Bool :=
  let effectiveDamage := max 1 (damage - e.armor)
  let health2 := e.health - effectiveDamage
  if health2 ≤ 0 then ({ e with health := health2, alive := false }, true)
  else ({ e with health := health2 }, false)

/-- Constant `MAX_DISTANCE` from projectile.js (`src/unnamed/part_005` line 35): the
    fixed maximum travel distance before projectiles are removed. -/
def MAX_DISTANCE : ℚ := 150

/-- Embeds `closestPointOnSegment` (`src/unnamed/part_005` lines 191-204).  The source
    computes `segmentLength = |seg|`, early-returns `segStart.clone()` when it
    equals 0, normalizes `seg` and clamps the scalar projection
    `toPoint ⬝ ŝ` to `[0, segmentLength]`, returning `start + ŝ * projection`.
    Over exact arithmetic `|s| = 0 ↔ |s|² = 0` and
    `start + ŝ * clamp(toPoint ⬝ ŝ, 0, |s|) = start + clamp(toPoint ⬝ s / |s|², 0, 1) * s`,
    which is the sqrt-free form used here. -/
def closestPointOnSegment (segStart segEnd point : Vec3) : Vec3 :=
  let segment := segEnd.sub segStart
  let toPoint := point.sub segStart
  if segment.len2 = 0 then segStart
  else
    let t := max 0 (min 1 (toPoint.dot segment / segment.len2))
    segStart.add (Vec3.smul t segment)

/-- The per-enemy body of the loop in `checkProjectileCollision`
    (`src/unnamed/part_005` lines 139-177): skip non-alive enemies; the hit
    radius is `enemy.mesh.scale.x * 1.5`; primary point test
    `newPos.distanceTo(enemyPos) < enemyRadius` records impact at `newPos`;
    otherwise the fallback segment test
    `closestPoint.distanceTo(enemyPos) < enemyRadius` records impact at the
    closest point; returns the recorded impact position, `none` for a miss. -/
def enemyHitTest (oldPos newPos : Vec3) (e : EnemyP) : Option Vec3 :=
  if e.alive = false then none
  else
    let enemyRadius := e.scaleX * (3 / 2)
    if distLt newPos e.position enemyRadius then some newPos
    else
      let closestPoint := closestPointOnSegment oldPos newPos e.position
      if distLt closestPoint e.position enemyRadius then some closestPoint
      else none

/-- Hit result record returned by `checkProjectileCollision`
    (`src/unnamed/part_005` lines 153-160 and 169-176).  The source stores the
    (mutated) enemy reference; we store the post-damage enemy record. -/
structure Hit where
  enemy : EnemyP
  damage : ℚ
  destroyed : Bool
  position : Vec3
  creditValue : ℚ
  pointValue : ℚ
deriving DecidableEq, Repr

/-- Embeds `checkProjectileCollision` (`src/unnamed/part_005` lines 137-181): scan the
    enemy collection in iteration order; on the first enemy whose point or
    segment test passes, apply `damageEnemy` and return the hit record at once
    (no later enemy is tested); return `none` when no enemy qualifies.  The
    in-place mutation of the hit enemy is embedded by returning the updated
    enemy collection alongside the optional hit. -/
def checkProjectileCollision (damage : ℚ) (oldPos newPos : Vec3) :
    List EnemyP → Option Hit × List EnemyP
  | [] => (none, [])
  | e :: rest =>
    match enemyHitTest oldPos newPos e with
    | some impact =>
      let r := damageEnemy e damage
      (some { enemy := r.1, damage := damage, destroyed := r.2, position := impact,
              creditValue := if r.2 then e.creditValue else 0,
              pointValue := if r.2 then e.pointValue else 0 },
       r.1 :: rest)
    | none =>
      let r := checkProjectileCollision damage oldPos newPos rest
      (r.1, e :: r.2)

/-- Projectile record (`src/unnamed/part_005` lines 66-74): the fields used by
    `updateProjectiles` (the `mesh`/`source` rendering fields are out of scope). -/
structure ProjectileP where
  position : Vec3
  direction : Vec3
  speed : ℚ
  damage : ℚ
  distanceTraveled : ℚ
  alive : Bool
deriving DecidableEq, Repr

/-- The per-projectile body of `updateProjectiles`
    (`src/unnamed/part_005` lines 95-124): skip non-alive projectiles; move by
    `direction * speed * deltaTime` and accumulate `distanceTraveled`; run the
    collision check from the pre-move to the post-move position; on a hit the
    projectile is removed at once (`removeProjectile` marks it dead and splices
    it out of the array); otherwise it is removed exactly when
    `distanceTraveled > MAX_DISTANCE`.  Result: (optional hit, updated
    projectile record, whether it stays in the projectiles array, updated
    enemy collection). -/
def updateProjectileStep (deltaTime : ℚ) (p : ProjectileP) (enemies : List EnemyP) :
    Option Hit × ProjectileP × Bool × List EnemyP :=
  if p.alive = false then (none, p, true, enemies)
  else
    let moveDistance := p.speed * deltaTime
    let newPos := p.position.add (Vec3.smul moveDistance p.direction)
    let p2 : ProjectileP :=
      { p with position := newPos, distanceTraveled := p.distanceTraveled + moveDistance }
    match checkProjectileCollision p2.damage p.position newPos enemies with
    | (some hit, enemies2) => (some hit, { p2 with alive := false }, false, enemies2)
    | (none, enemies2) =>
      if MAX_DISTANCE < p2.distanceTraveled then (none, { p2 with alive := false }, false, enemies2)
      else (none, p2, true, enemies2)

/-- Enemy as seen by `Game.findClosestEnemy` (`src/js/game.js`): position and
    the `isAlive` flag (the distance is taken between entity positions,
    `Entity.distanceTo`, `src/js/entities.js` lines 29-31). -/
structure EnemyG where
  position : Vec3
  isAlive : Bool
deriving DecidableEq, Repr

/-- Comparison `distance < closestDistance` against the tracked best candidate.
    `closestDistance` is initialized to `Infinity` in the source (line 471);
    `none` plays Infinity, so any distance beats it.  Distances are compared
    in squared form (sqrt is strictly monotone). -/
def closerThan (d2v : ℚ) : Option (EnemyG × ℚ) → Prop
  | none => True
  | some (_, b) => d2v < b

instance : ∀ (d2v : ℚ) (best : Option (EnemyG × ℚ)), Decidable (closerThan d2v best)
  | _, none => isTrue trivial
  | d2v, some (_, b) => inferInstanceAs (Decidable (d2v < b))

/-- The scan loop of `Game.findClosestEnemy` (`src/js/game.js` lines 473-495):
    skip non-alive enemies; for the starbase (`entity === this.starbase`) keep
    an enemy only if `distance <= entity.cannonRange && distance < closestDistance`;
    for other entities only `distance < closestDistance`.  `best` carries the
    `(closest, closestDistance²)` pair. -/
def findClosestAux (pos : Vec3) (isStarbase : Bool) (cannonRange : ℚ) :
    List EnemyG → Option (EnemyG × ℚ) → Option (EnemyG × ℚ)
  | [], best => best
  | e :: rest, best =>
    if e.isAlive = false then findClosestAux pos isStarbase cannonRange rest best
    else
      if isStarbase then
        if distLe pos e.position cannonRange ∧ closerThan (dist2 pos e.position) best then
          findClosestAux pos isStarbase cannonRange rest (some (e, dist2 pos e.position))
        else findClosestAux pos isStarbase cannonRange rest best
      else
        if closerThan (dist2 pos e.position) best then
          findClosestAux pos isStarbase cannonRange rest (some (e, dist2 pos e.position))
        else findClosestAux pos isStarbase cannonRange rest best

/-- Embeds `Game.findClosestEnemy` (`src/js/game.js` lines 469-498): linear scan
    returning the tracked closest enemy, `null` (`none`) when no enemy
    qualified. -/
def findClosestEnemy (pos : Vec3) (isStarbase : Bool) (cannonRange : ℚ)
    (enemies : List EnemyG) : Option EnemyG :=
  (findClosestAux pos isStarbase cannonRange enemies none).map Prod.fst

/-- Qualification in the starbase branch: alive and at distance ≤ cannonRange. -/
def inRangeAlive (pos : Vec3) (cannonRange : ℚ) (e : EnemyG) : Prop :=
  e.isAlive = true ∧ distLe pos e.position cannonRange

instance (pos : Vec3) (cannonRange : ℚ) (e : EnemyG) :
    Decidable (inRangeAlive pos cannonRange e) := by
  unfold inRangeAlive; infer_instance

/-- One axis of the Catmull-Rom formula (`catmullRomInterpolation`,
    `src/js/path.js` lines 177-206; the source computes `t2 = t*t`,
    `t3 = t2*t`). -/
def catmullRomAxis (a b c d t : ℚ) : ℚ :=
  0.5 * ((2 * b) + (-a + c) * t + (2 * a - 5 * b + 4 * c - d) * t ^ 2
    + (-a + 3 * b - 3 * c + d) * t ^ 3)

/-- Embeds `catmullRomInterpolation` (`src/js/path.js` lines 177-206): the cubic is
    evaluated independently per axis. -/
def catmullRomInterpolation (p0 p1 p2 p3 : Vec3) (t : ℚ) : Vec3 :=
  ⟨catmullRomAxis p0.x p1.x p2.x p3.x t,
   catmullRomAxis p0.y p1.y p2.y p3.y t,
   catmullRomAxis p0.z p1.z p2.z p3.z t⟩

/-- Path record (`createPath`, `src/js/path.js` lines 105-121).  `createPath`
    derives `segmentLengths[i] = waypoints[i].distanceTo(waypoints[i+1])` (a
    real sqrt, hence positive for distinct consecutive waypoints) and
    `totalLength` as their sum, once, at creation; the claims take the record
    with those invariants as hypotheses. -/
structure Path where
  waypoints : List Vec3
  segmentLengths : List ℚ
  totalLength : ℚ
deriving DecidableEq, Repr

/-- The segment-locating loop of `getPositionOnPath` (`src/js/path.js` lines
    140-150): walk the segment lengths accumulating distance; stop at the
    first segment with `accumulated + length >= targetDistance`; if the loop
    exhausts, the index sticks at the last segment with the full accumulated
    distance.  Returns `(segmentIndex, accumulatedDistance)`. -/
def findSegment (targetDistance : ℚ) : List ℚ → ℚ → ℕ → ℕ × ℚ
  | [], acc, idx => (idx, acc)
  | [L], acc, idx => if targetDistance ≤ acc + L then (idx, acc) else (idx, acc + L)
  | L :: L2 :: rest, acc, idx =>
    if targetDistance ≤ acc + L then (idx, acc)
    else findSegment targetDistance (L2 :: rest) (acc + L) (idx + 1)

/-- Body of `getPositionOnPath` after the progress clamp (`src/js/path.js`
    lines 139-163).  Nat subtraction realizes the source's `max(0, i-1)` clamp
    and `min` the upper clamps; `getD` returns a default out of bounds,
    which the source's clamped indices never are under the path invariants. -/
def getPositionOnPathCore (path : Path) (prog : ℚ) : Vec3 :=
  let waypoints := path.waypoints
  let targetDistance := prog * path.totalLength
  let si := findSegment targetDistance path.segmentLengths 0 0
  let segmentProgress := (targetDistance - si.2) / path.segmentLengths.getD si.1 0
  let p0 := waypoints.getD (si.1 - 1) Vec3.zero
  let p1 := waypoints.getD si.1 Vec3.zero
  let p2 := waypoints.getD (min (waypoints.length - 1) (si.1 + 1)) Vec3.zero
  let p3 := waypoints.getD (min (waypoints.length - 1) (si.1 + 2)) Vec3.zero
  catmullRomInterpolation p0 p1 p2 p3 segmentProgress

/-- Embeds `getPositionOnPath` (`src/js/path.js` lines 131-164): clamps progress to
    [0,1] (line 136) and interpolates.  (The `paths[pathName] || paths['default']`
    registry lookup is out of scope: the path record is passed directly.) -/
def getPositionOnPath (path : Path) (progress : ℚ) : Vec3 :=
  getPositionOnPathCore path (max 0 (min 1 progress))

/-- The deltaTime clamp of the main loop (`src/js/main.js` line 520):
    `Math.min(clock.getDelta(), 0.1)`. -/
def animateDeltaTime (rawDelta : ℚ) : ℚ := min rawDelta 0.1

/-- Base `Entity` record (`src/js/entities.js` lines 4-32): only the fields
    `destroy` touches (the `scene.remove(mesh)` call is render-side and
    harmless to repeat). -/
structure EntityE where
  isAlive : Bool
deriving DecidableEq, Repr

/-- Embeds `Entity.destroy` (`src/js/entities.js` lines 22-27). -/
def entityDestroy (e : EntityE) : EntityE := { e with isAlive := false }

/-- The registries of the 2D-prototype game touched by `Enemy.destroy`
    (`src/js/enemy.js` lines 313-325).  Entities are identified by object
    reference in the source; ids embed the references. -/
structure Game2D where
  gameObjects : List ℕ
  enemies : List ℕ
deriving DecidableEq, Repr

/-- Pattern `indexOf` followed by `splice(index, 1)` guarded by `index > -1`: removes
    the first occurrence when present, otherwise leaves the array unchanged. -/
def spliceFirst : List ℕ → ℕ → List ℕ
  | [], _ => []
  | y :: rest, x => if y = x then rest else y :: spliceFirst rest x

/-- Embeds `Enemy.destroy` (`src/js/enemy.js` lines 313-325): removes the enemy from
    `game.gameObjects` and `game.enemies`, each via the guarded
    `indexOf`/`splice` pattern. -/
def enemyDestroy (g : Game2D) (eid : ℕ) : Game2D :=
  { gameObjects := spliceFirst g.gameObjects eid, enemies := spliceFirst g.enemies eid }

/-- Projectile record at the registry level. -/
structure ProjRec where
  pid : ℕ
  alive : Bool
deriving DecidableEq, Repr

/-- Embeds `removeProjectile` (`src/unnamed/part_005` lines 211-224): marks the
    projectile dead and unconditionally splices position `index` out of the
    projectiles array.  JS `splice(index, 1)` removes the element at `index`
    when `index < length` and is a no-op otherwise, exactly
    `List.eraseIdx`.  (The scene/material disposal is render-side.) -/
def removeProjectile (projectiles : List ProjRec) (p : ProjRec) (index : ℕ) :
    ProjRec × List ProjRec :=
  ({ p with alive := false }, projectiles.eraseIdx index)

/-- Constant `MIN_PLACEMENT_DISTANCE` (`src/js/platform.js` line 40). -/
def MIN_PLACEMENT_DISTANCE : ℚ := 15

/-- Constant `MAX_PLACEMENT_DISTANCE` (`src/js/platform.js` line 49). -/
def MAX_PLACEMENT_DISTANCE : ℚ := 70

/-- Constant `MIN_PLATFORM_SPACING` (`src/js/platform.js` line 56). -/
def MIN_PLATFORM_SPACING : ℚ := 10

/-- Platform record (`createPlatform`, `src/js/platform.js` lines 557-608);
    the combat stats and mesh, unused by placement validation, are omitted. -/
structure Platform where
  type : String
  position : Vec3
  alive : Bool
  id : ℕ
deriving DecidableEq, Repr

/-- Horizontal (X-Z) squared distance from the planet center at the origin:
    the source compares `Math.sqrt(pos.x*pos.x + pos.z*pos.z)` against the
    placement bounds (`src/js/platform.js` line 89). -/
def horizontalDist2 (pos : Vec3) : ℚ := pos.x * pos.x + pos.z * pos.z

/-- Comparison `distance < nearestDistance` against the tracked minimum, `none` playing
    the `Infinity` initializer; squared distances. -/
def closerThanQ (d2v : ℚ) : Option ℚ → Prop
  | none => True
  | some b => d2v < b

instance : ∀ (d2v : ℚ) (best : Option ℚ), Decidable (closerThanQ d2v best)
  | _, none => isTrue trivial
  | d2v, some b => inferInstanceAs (Decidable (d2v < b))

/-- The nearest-platform scan of `checkPlatformOverlap`
    (`src/js/platform.js` lines 140-165): `nearestDistance` starts at
    Infinity; non-alive platforms are skipped; a strictly smaller distance
    updates the minimum.  (On the `confirmPlacement` path `excludePlatform`
    is `null` and the tracked `nearestPlatform` reference is unused, so both
    are omitted.) -/
def nearestPlatformD2 (pos : Vec3) : List Platform → Option ℚ → Option ℚ
  | [], best => best
  | q :: rest, best =>
    if q.alive = false then nearestPlatformD2 pos rest best
    else
      if closerThanQ (dist2 pos q.position) best then
        nearestPlatformD2 pos rest (some (dist2 pos q.position))
      else nearestPlatformD2 pos rest best

/-- Embeds `checkPlatformOverlap` (`src/js/platform.js` lines 134-175): overlapping
    iff `nearestDistance < MIN_PLATFORM_SPACING` (`Infinity < 10` is false
    when no live platform exists). -/
def checkPlatformOverlap (platforms : List Platform) (pos : Vec3) : Bool :=
  match nearestPlatformD2 pos platforms none with
  | none => false
  | some d2v => decide (d2v < MIN_PLATFORM_SPACING ^ 2)

/-- Embeds `isValidPlacementPosition` (`src/js/platform.js` lines 81-121): the
    distance-band checks, then the overlap check, each with its failure
    reason; sqrt-free comparisons. -/
def isValidPlacementPosition (platforms : List Platform) (pos : Vec3) : Bool × String :=
  if horizontalDist2 pos < MIN_PLACEMENT_DISTANCE ^ 2 then (false, "Too close to planet")
  else if MAX_PLACEMENT_DISTANCE ^ 2 < horizontalDist2 pos then (false, "Too far from planet")
  else if checkPlatformOverlap platforms pos then (false, "Too close to another platform")
  else (true, "Valid placement")

/-- Placement UI state (`placementState`, `src/js/platform.js`): the fields
    read by `confirmPlacement`. -/
structure PlacementState where
  active : Bool
  selectedType : Option String
  previewPosition : Vec3
deriving DecidableEq, Repr

/-- Embeds `createPlatform` (`src/js/platform.js` lines 557-608): builds the platform
    record (`id` is the current array length, `alive := true`) and pushes it
    onto the platforms array. -/
def createPlatform (t : String) (pos : Vec3) (platforms : List Platform) :
    Platform × List Platform :=
  let platform : Platform := { type := t, position := pos, alive := true, id := platforms.length }
  (platform, platforms ++ [platform])

/-- Embeds `confirmPlacement` (`src/js/platform.js` lines 503-529): `null` unless a
    placement is active with a selected type; re-validates the preview
    position and returns `null` on failure; otherwise creates the platform
    (appending exactly one) and returns it. -/
def confirmPlacement (st : PlacementState) (platforms : List Platform) :
    Option Platform × List Platform :=
  if st.active = false ∨ st.selectedType = none then (none, platforms)
  else
    if (isValidPlacementPosition platforms st.previewPosition).1 = false then (none, platforms)
    else
      match st.selectedType with
      | none => (none, platforms)
      | some t =>
        let r := createPlatform t st.previewPosition platforms
        (some r.1, r.2)

/-- Claim C1 counterexample: the claim says every hit reduces health by
    `max(1, rawDamage - enemyArmor)` (so damage 5 against armor 10 deals 1) for
    every enemy, but `Enemy.takeDamage` in `src/js/enemy.js` applies
    `max(0, amount - armor)`: an enemy with health 100 and armor 10 hit for 5
    keeps health 100, whereas the claimed reduction would leave 99. -/
theorem C1_counterexample :
    (takeDamageEnemyJs ⟨100, 10⟩ 5).health = 100 ∧
      (100 : ℚ) - max 1 (5 - 10) = 99 ∧ (100 : ℚ) ≠ 99 := by
  norm_num [takeDamageEnemyJs, max_def]

/-- Claim C1 (amended): in `src/js/entities.js`, `Enemy.takeDamage` reduces
    health by exactly `max(1, amount - armor)`, which is at least 1 for every
    armor value (never zero or negative), and the spec-modelled modular
    `damageEnemy` does the same; but the 2D-prototype `Enemy.takeDamage` in
    `src/js/enemy.js` reduces health by `max(0, amount - armor)`, which is 0
    whenever armor ≥ raw damage. -/
theorem C1_amended (e : EnemyE) (m : EnemyP) (j : EnemyJS) (amount : ℚ) :
    (takeDamageEntities e amount).1.health = e.health - max 1 (amount - e.armor)
    ∧ (1 : ℚ) ≤ max 1 (amount - e.armor)
    ∧ (damageEnemy m amount).1.health = m.health - max 1 (amount - m.armor)
    ∧ (takeDamageEnemyJs j amount).health = j.health - max 0 (amount - j.armor) := by
  refine ⟨?_, le_max_left _ _, ?_, rfl⟩
  · dsimp only [takeDamageEntities]
    split <;> rfl
  · dsimp only [damageEnemy]
    split <;> rfl

lemma len2_sub_self (v : Vec3) : (v.sub v).len2 = 0 := by
  simp [Vec3.sub, Vec3.len2]

/-- Claim C9: `closestPointOnSegment` is total even on a degenerate segment:
    for identical endpoints it returns the segment start (the source
    early-returns before dividing by the zero segment length), and in every
    case its result lies on the segment: it is `start + t * (end - start)`
    for a projection parameter `t` clamped to `[0, 1]`. -/
theorem C9_theorem (segStart segEnd point : Vec3) :
    (segStart = segEnd → closestPointOnSegment segStart segEnd point = segStart)
    ∧ ∃ t : ℚ, 0 ≤ t ∧ t ≤ 1 ∧
        closestPointOnSegment segStart segEnd point =
          segStart.add (Vec3.smul t (segEnd.sub segStart)) := by
  constructor
  · intro h
    subst h
    unfold closestPointOnSegment
    rw [if_pos (len2_sub_self segStart)]
  · unfold closestPointOnSegment
    by_cases h : (segEnd.sub segStart).len2 = 0
    · rw [if_pos h]
      refine ⟨0, le_refl 0, by norm_num, ?_⟩
      simp [Vec3.add, Vec3.smul]
    · rw [if_neg h]
      refine ⟨max 0 (min 1 (((point.sub segStart).dot (segEnd.sub segStart)) /
        (segEnd.sub segStart).len2)), le_max_left _ _, ?_, rfl⟩
      exact max_le (by norm_num) (min_le_left _ _)

/-- Witness for C9 at a concrete degenerate segment. -/
theorem C9_witness :
    closestPointOnSegment ⟨1, 2, 3⟩ ⟨1, 2, 3⟩ ⟨4, 5, 6⟩ = ⟨1, 2, 3⟩ :=
  (C9_theorem ⟨1, 2, 3⟩ ⟨1, 2, 3⟩ ⟨4, 5, 6⟩).1 rfl

/-- Claim C5: whenever the primary point-distance test against an alive enemy
    misses, the resolver computes the closest point on the segment from the
    projectile's pre-move to its post-move position (projection parameter
    clamped to the segment, cf. `C9_theorem`), and registers a hit if and only
    if that closest point is within the enemy's hit radius, recording the
    closest point as the impact position. -/
theorem C5_theorem (oldPos newPos : Vec3) (e : EnemyP)
    (halive : e.alive = true)
    (hmiss : ¬ distLt newPos e.position (e.scaleX * (3 / 2))) :
    (distLt (closestPointOnSegment oldPos newPos e.position) e.position (e.scaleX * (3 / 2)) →
      enemyHitTest oldPos newPos e = some (closestPointOnSegment oldPos newPos e.position))
    ∧ (¬ distLt (closestPointOnSegment oldPos newPos e.position) e.position (e.scaleX * (3 / 2)) →
      enemyHitTest oldPos newPos e = none) := by
  have hbase : enemyHitTest oldPos newPos e =
      if distLt (closestPointOnSegment oldPos newPos e.position) e.position (e.scaleX * (3 / 2))
      then some (closestPointOnSegment oldPos newPos e.position) else none := by
    unfold enemyHitTest
    rw [halive]
    simp [hmiss]
  constructor
  · intro h
    rw [hbase, if_pos h]
  · intro h
    rw [hbase, if_neg h]

/-- Witness for C5: projectile sweeping from the origin to (8,0,0) past an
    alive enemy at (4,3,0) with hit radius 5: the post-move distance is exactly
    5 (primary miss), the segment's closest point (4,0,0) is at distance 3, so
    the fallback registers the hit at (4,0,0). -/
theorem C5_witness :
    enemyHitTest ⟨0, 0, 0⟩ ⟨8, 0, 0⟩ ⟨⟨4, 3, 0⟩, 10 / 3, 20, 0, true, 5, 10⟩ =
      some ⟨4, 0, 0⟩ := by
  have h := (C5_theorem ⟨0, 0, 0⟩ ⟨8, 0, 0⟩ ⟨⟨4, 3, 0⟩, 10 / 3, 20, 0, true, 5, 10⟩ rfl
    (by norm_num [distLt, dist2, Vec3.sub, Vec3.len2])).1
    (by norm_num [distLt, dist2, Vec3.sub, Vec3.len2, closestPointOnSegment, Vec3.dot,
      Vec3.add, Vec3.smul, min_def, max_def])
  rw [h]
  norm_num [closestPointOnSegment, dist2, Vec3.sub, Vec3.len2, Vec3.dot, Vec3.add, Vec3.smul,
    min_def, max_def]

/-- Claim C4 counterexample: the claim says an enemy whose distance to the
    projectile equals the hit radius exactly never counts as a hit; here the
    enemy at (4,3,0) with hit radius `(10/3)*1.5 = 5` is at distance exactly 5
    from the projectile's post-move position (8,0,0), yet the resolver
    registers a hit, because the swept segment from (0,0,0) passed strictly
    inside the radius (closest point (4,0,0), distance 3). -/
theorem C4_counterexample :
    dist2 ⟨8, 0, 0⟩ (⟨4, 3, 0⟩ : Vec3) = ((10 / 3 : ℚ) * (3 / 2)) ^ 2
    ∧ enemyHitTest ⟨0, 0, 0⟩ ⟨8, 0, 0⟩ ⟨⟨4, 3, 0⟩, 10 / 3, 20, 0, true, 5, 10⟩ =
        some ⟨4, 0, 0⟩ := by
  constructor
  · norm_num [dist2, Vec3.sub, Vec3.len2]
  · norm_num [enemyHitTest, distLt, dist2, Vec3.sub, Vec3.len2, closestPointOnSegment,
      Vec3.dot, Vec3.add, Vec3.smul, min_def, max_def]

/-- Claim C4 (amended): the collision resolver uses strict inequalities at both
    boundaries.  (1) A projectile whose accumulated `distanceTraveled` equals
    `MAX_DISTANCE` (the fixed constant 150, independent of the firing weapon's
    range stat, which the projectile record does not even carry) is not
    destroyed: absent a hit, removal happens iff `distanceTraveled` is strictly
    greater than `MAX_DISTANCE`.  (2) Both distance tests are strict: an enemy
    at distance not less than the hit radius from the post-move position AND
    not less than the hit radius from the segment's closest point is never hit;
    and every hit requires one of the two tested distances to be strictly less
    than the hit radius.  (Equality in the primary point distance alone does
    not preclude a hit: the segment fallback can still fire, cf.
    `C4_counterexample`.) -/
theorem C4_amended :
    (∀ (deltaTime : ℚ) (p : ProjectileP) (enemies : List EnemyP),
        p.alive = true →
        (updateProjectileStep deltaTime p enemies).1 = none →
        ((updateProjectileStep deltaTime p enemies).2.2.1 = false ↔
          MAX_DISTANCE < p.distanceTraveled + p.speed * deltaTime))
    ∧ (∀ (oldPos newPos : Vec3) (e : EnemyP),
        (e.scaleX * (3 / 2)) ^ 2 ≤ dist2 newPos e.position →
        (e.scaleX * (3 / 2)) ^ 2 ≤
            dist2 (closestPointOnSegment oldPos newPos e.position) e.position →
        enemyHitTest oldPos newPos e = none)
    ∧ (∀ (oldPos newPos : Vec3) (e : EnemyP) (impact : Vec3),
        enemyHitTest oldPos newPos e = some impact →
        distLt newPos e.position (e.scaleX * (3 / 2)) ∨
          distLt (closestPointOnSegment oldPos newPos e.position) e.position
            (e.scaleX * (3 / 2))) := by
  refine ⟨?_, ?_, ?_⟩
  · intro deltaTime p enemies hal hnone
    rcases hcc : checkProjectileCollision p.damage p.position
        (p.position.add (Vec3.smul (p.speed * deltaTime) p.direction)) enemies with ⟨oh, es2⟩
    rcases oh with _ | hit
    · simp only [updateProjectileStep, hal, Bool.true_eq_false, if_false, hcc]
      constructor
      · intro hfalse
        by_contra hle
        rw [if_neg hle] at hfalse
        exact Bool.true_eq_false.mp hfalse
      · intro hlt
        rw [if_pos hlt]
    · exfalso
      simp [updateProjectileStep, hal, hcc] at hnone
  · intro oldPos newPos e h1 h2
    unfold enemyHitTest
    rcases he : e.alive with _ | _
    · rw [if_pos rfl]
    · rw [if_neg (by simp)]
      rw [if_neg (fun hc => absurd hc.2 (not_lt.mpr h1)),
        if_neg (fun hc => absurd hc.2 (not_lt.mpr h2))]
  · intro oldPos newPos e impact hsome
    unfold enemyHitTest at hsome
    by_cases ha : e.alive = false
    · rw [if_pos ha] at hsome
      exact absurd hsome (by simp)
    · rw [if_neg ha] at hsome
      by_cases h1 : distLt newPos e.position (e.scaleX * (3 / 2))
      · exact Or.inl h1
      · rw [if_neg h1] at hsome
        by_cases h2 : distLt (closestPointOnSegment oldPos newPos e.position) e.position
            (e.scaleX * (3 / 2))
        · exact Or.inr h2
        · rw [if_neg h2] at hsome
          exact absurd hsome (by simp)

/-- Witness for C4 at a concrete projectile reaching exactly `MAX_DISTANCE`:
    speed 10, deltaTime 1, prior travel 140, no enemies — the hit result is
    `none`, and the projectile is kept (removal would require strictly more
    than 150). -/
theorem C4_witness :
    ((updateProjectileStep 1 ⟨⟨0, 0, 0⟩, ⟨1, 0, 0⟩, 10, 5, 140, true⟩ []).1 = none)
    ∧ (((updateProjectileStep 1 ⟨⟨0, 0, 0⟩, ⟨1, 0, 0⟩, 10, 5, 140, true⟩ []).2.2.1 = false) ↔
        MAX_DISTANCE < 140 + 10 * 1) :=
  ⟨by norm_num [updateProjectileStep, checkProjectileCollision, MAX_DISTANCE, Vec3.add, Vec3.smul],
   C4_amended.1 1 ⟨⟨0, 0, 0⟩, ⟨1, 0, 0⟩, 10, 5, 140, true⟩ [] rfl
     (by norm_num [updateProjectileStep, checkProjectileCollision, MAX_DISTANCE, Vec3.add, Vec3.smul])⟩

lemma checkProjectileCollision_split (damage : ℚ) (oldPos newPos : Vec3) :
    ∀ es : List EnemyP,
      (∀ h es2, checkProjectileCollision damage oldPos newPos es = (some h, es2) →
        ∃ l₁ e l₂, es = l₁ ++ e :: l₂
          ∧ (∀ x ∈ l₁, enemyHitTest oldPos newPos x = none)
          ∧ enemyHitTest oldPos newPos e ≠ none
          ∧ h.enemy = (damageEnemy e damage).1
          ∧ es2 = l₁ ++ (damageEnemy e damage).1 :: l₂)
      ∧ (∀ es2, checkProjectileCollision damage oldPos newPos es = (none, es2) → es2 = es)
  | [] => by
    constructor
    · intro h es2 heq
      simp [checkProjectileCollision] at heq
    · intro es2 heq
      simp only [checkProjectileCollision, Prod.mk.injEq] at heq
      exact heq.2.symm
  | e :: rest => by
    have IH := checkProjectileCollision_split damage oldPos newPos rest
    rcases ht : enemyHitTest oldPos newPos e with _ | impact
    · rcases hr : checkProjectileCollision damage oldPos newPos rest with ⟨oh, rest2⟩
      have heq : checkProjectileCollision damage oldPos newPos (e :: rest) = (oh, e :: rest2) := by
        simp only [checkProjectileCollision, ht, hr]
      constructor
      · intro h es2 h2
        rw [heq] at h2
        obtain ⟨hoh, hes2⟩ := Prod.mk.injEq .. ▸ h2
        obtain ⟨l₁, f, l₂, hsplit, hnone, hhit, henemy, hrest2⟩ :=
          IH.1 h rest2 (by rw [hr, hoh])
        refine ⟨e :: l₁, f, l₂, by simp [hsplit], ?_, hhit, henemy, ?_⟩
        · intro x hx
          rcases List.mem_cons.mp hx with hx | hx
          · rw [hx]; exact ht
          · exact hnone x hx
        · rw [← hes2, hrest2]; rfl
      · intro es2 h2
        rw [heq] at h2
        obtain ⟨hoh, hes2⟩ := Prod.mk.injEq .. ▸ h2
        have := IH.2 rest2 (by rw [hr, hoh])
        rw [← hes2, this]
    · have heq : checkProjectileCollision damage oldPos newPos (e :: rest) =
          (some { enemy := (damageEnemy e damage).1, damage := damage,
                  destroyed := (damageEnemy e damage).2, position := impact,
                  creditValue := if (damageEnemy e damage).2 then e.creditValue else 0,
                  pointValue := if (damageEnemy e damage).2 then e.pointValue else 0 },
           (damageEnemy e damage).1 :: rest) := by
        simp only [checkProjectileCollision, ht]
      constructor
      · intro h es2 h2
        rw [heq] at h2
        obtain ⟨hoh, hes2⟩ := Prod.mk.injEq .. ▸ h2
        refine ⟨[], e, rest, rfl, by intro x hx; exact absurd hx (List.not_mem_nil x), ?_, ?_, ?_⟩
        · rw [ht]; exact fun hc => Option.noConfusion hc
        · rw [← Option.some.inj hoh]
        · rw [← hes2]; rfl
      · intro es2 h2
        rw [heq] at h2
        exact absurd (Prod.mk.injEq .. ▸ h2).1 (fun hc => Option.noConfusion hc)

/-- Claim C6: per tick, a projectile damages at most one enemy — the first
    enemy in iteration order whose hit test passes: every earlier enemy tested
    misses, only that enemy's record is updated (by `damageEnemy`), and the
    rest of the collection, including every later enemy, is returned untouched
    (the scan returns at the first hit, so no later enemy is even tested).
    When a hit is reported, the projectile is destroyed immediately: marked
    dead and removed from the projectiles array. -/
theorem C6_theorem (damage : ℚ) (oldPos newPos : Vec3) (es : List EnemyP) :
    (∀ h es2, checkProjectileCollision damage oldPos newPos es = (some h, es2) →
      ∃ l₁ e l₂, es = l₁ ++ e :: l₂
        ∧ (∀ x ∈ l₁, enemyHitTest oldPos newPos x = none)
        ∧ enemyHitTest oldPos newPos e ≠ none
        ∧ h.enemy = (damageEnemy e damage).1
        ∧ es2 = l₁ ++ (damageEnemy e damage).1 :: l₂)
    ∧ (∀ es2, checkProjectileCollision damage oldPos newPos es = (none, es2) → es2 = es)
    ∧ (∀ (deltaTime : ℚ) (p : ProjectileP) (h : Hit),
        p.alive = true →
        (updateProjectileStep deltaTime p es).1 = some h →
        (updateProjectileStep deltaTime p es).2.1.alive = false
          ∧ (updateProjectileStep deltaTime p es).2.2.1 = false) := by
  refine ⟨(checkProjectileCollision_split damage oldPos newPos es).1,
    (checkProjectileCollision_split damage oldPos newPos es).2, ?_⟩
  intro deltaTime p h hal hsome
  rcases hcc : checkProjectileCollision p.damage p.position
      (p.position.add (Vec3.smul (p.speed * deltaTime) p.direction)) es with ⟨oh, es2⟩
  rcases oh with _ | hit
  · exfalso
    simp only [updateProjectileStep, hal, Bool.true_eq_false, if_false, hcc] at hsome
    by_cases hd : MAX_DISTANCE < p.distanceTraveled + p.speed * deltaTime
    · rw [if_pos hd] at hsome
      exact Option.noConfusion hsome
    · rw [if_neg hd] at hsome
      exact Option.noConfusion hsome
  · constructor <;> simp only [updateProjectileStep, hal, Bool.true_eq_false, if_false, hcc]

/-- Witness for C6: a projectile sweeping from the origin to (8,0,0) hits the
    single enemy at (4,3,0); the step reports the hit and the projectile is
    marked dead and dropped from the array. -/
theorem C6_witness :
    (updateProjectileStep 1 ⟨⟨0, 0, 0⟩, ⟨1, 0, 0⟩, 8, 5, 0, true⟩
        [⟨⟨4, 3, 0⟩, 10 / 3, 20, 0, true, 5, 10⟩]).2.1.alive = false
    ∧ (updateProjectileStep 1 ⟨⟨0, 0, 0⟩, ⟨1, 0, 0⟩, 8, 5, 0, true⟩
        [⟨⟨4, 3, 0⟩, 10 / 3, 20, 0, true, 5, 10⟩]).2.2.1 = false :=
  (C6_theorem 5 ⟨0, 0, 0⟩ ⟨8, 0, 0⟩ [⟨⟨4, 3, 0⟩, 10 / 3, 20, 0, true, 5, 10⟩]).2.2
    1 ⟨⟨0, 0, 0⟩, ⟨1, 0, 0⟩, 8, 5, 0, true⟩
    ⟨⟨⟨4, 3, 0⟩, 10 / 3, 15, 0, true, 5, 10⟩, 5, false, ⟨4, 0, 0⟩, 0, 0⟩ rfl
    (by norm_num [updateProjectileStep, checkProjectileCollision, enemyHitTest, damageEnemy,
      distLt, dist2, Vec3.sub, Vec3.len2, closestPointOnSegment, Vec3.dot, Vec3.add, Vec3.smul,
      min_def, max_def, MAX_DISTANCE])

lemma closerThan_trans {d1 d2v : ℚ} {best : Option (EnemyG × ℚ)}
    (h1 : d1 < d2v) (h2 : closerThan d2v best) : closerThan d1 best := by
  rcases best with _ | ⟨g, b⟩
  · trivial
  · exact lt_trans h1 h2

/-- Full characterization of the starbase scan loop, for an arbitrary
    accumulator: the result is `none` only when the accumulator was empty and
    nothing in the list qualifies; otherwise it is either the surviving
    accumulator (with nothing in the list strictly closer) or the first
    qualifying list element achieving the minimum distance (strictly closer
    than every qualifying element before it, no farther than any after it). -/
lemma findClosestAux_spec (pos : Vec3) (range : ℚ) :
    ∀ (es : List EnemyG) (best : Option (EnemyG × ℚ)),
      (findClosestAux pos true range es best = none →
        best = none ∧ ∀ e ∈ es, ¬ inRangeAlive pos range e)
      ∧ (∀ f d, findClosestAux pos true range es best = some (f, d) →
          (best = some (f, d) ∧ ∀ x ∈ es, inRangeAlive pos range x → d ≤ dist2 pos x.position)
          ∨ (inRangeAlive pos range f ∧ d = dist2 pos f.position ∧ closerThan d best ∧
             ∃ l₁ l₂, es = l₁ ++ f :: l₂
               ∧ (∀ x ∈ l₁, inRangeAlive pos range x → d < dist2 pos x.position)
               ∧ (∀ x ∈ l₂, inRangeAlive pos range x → d ≤ dist2 pos x.position)))
  | [], best => by
    constructor
    · intro h
      simp only [findClosestAux] at h
      exact ⟨h, fun e he => absurd he (List.not_mem_nil e)⟩
    · intro f d h
      simp only [findClosestAux] at h
      exact Or.inl ⟨h, fun x hx => absurd hx (List.not_mem_nil x)⟩
  | e :: rest, best => by
    have IH := findClosestAux_spec pos range rest
    by_cases halive : e.isAlive = false
    · have hstep : findClosestAux pos true range (e :: rest) best =
          findClosestAux pos true range rest best := by
        simp [findClosestAux, halive]
      have hbad : ¬ inRangeAlive pos range e := fun hc => by
        have h1 := hc.1
        rw [halive] at h1
        exact Bool.noConfusion h1
      constructor
      · intro h
        rw [hstep] at h
        obtain ⟨h1, h2⟩ := (IH best).1 h
        refine ⟨h1, fun x hx => ?_⟩
        rcases List.mem_cons.mp hx with hx | hx
        · rw [hx]; exact hbad
        · exact h2 x hx
      · intro f d h
        rw [hstep] at h
        rcases (IH best).2 f d h with ⟨h1, h2⟩ | ⟨hg, hd, hc, l₁, l₂, hsp, hb1, hb2⟩
        · refine Or.inl ⟨h1, fun x hx hgood => ?_⟩
          rcases List.mem_cons.mp hx with hx | hx
          · exact absurd hgood (hx ▸ hbad)
          · exact h2 x hx hgood
        · refine Or.inr ⟨hg, hd, hc, e :: l₁, l₂, by simp [hsp], fun x hx hgood => ?_, hb2⟩
          rcases List.mem_cons.mp hx with hx | hx
          · exact absurd hgood (hx ▸ hbad)
          · exact hb1 x hx hgood
    · have halive2 : e.isAlive = true := by
        simp at halive
        exact halive
      by_cases hcond : distLe pos e.position range ∧ closerThan (dist2 pos e.position) best
      · have hstep : findClosestAux pos true range (e :: rest) best =
            findClosestAux pos true range rest (some (e, dist2 pos e.position)) := by
          simp [findClosestAux, halive2, hcond]
        constructor
        · intro h
          rw [hstep] at h
          obtain ⟨h1, _⟩ := (IH (some (e, dist2 pos e.position))).1 h
          exact Option.noConfusion h1
        · intro f d h
          rw [hstep] at h
          rcases (IH (some (e, dist2 pos e.position))).2 f d h with
            ⟨h1, h2⟩ | ⟨hg, hd, hc, l₁, l₂, hsp, hb1, hb2⟩
          · obtain ⟨hef, hdd⟩ := Prod.mk.injEq .. ▸ Option.some.inj h1
            refine Or.inr ⟨?_, ?_, ?_, [], rest, ?_, ?_, ?_⟩
            · rw [← hef]; exact ⟨halive2, hcond.1⟩
            · rw [← hef, ← hdd]
            · rw [← hdd]; exact hcond.2
            · rw [← hef]; rfl
            · intro x hx; exact absurd hx (List.not_mem_nil x)
            · exact h2
          · refine Or.inr ⟨hg, hd, closerThan_trans hc hcond.2, e :: l₁, l₂,
              by simp [hsp], fun x hx hgood => ?_, hb2⟩
            rcases List.mem_cons.mp hx with hx | hx
            · rw [hx]; rw [hd] at hc ⊢; exact hc
            · exact hb1 x hx hgood
      · have hstep : findClosestAux pos true range (e :: rest) best =
            findClosestAux pos true range rest best := by
          simp [findClosestAux, halive2, hcond]
        constructor
        · intro h
          rw [hstep] at h
          obtain ⟨h1, h2⟩ := (IH best).1 h
          refine ⟨h1, fun x hx => ?_⟩
          rcases List.mem_cons.mp hx with hx | hx
          · intro hgood
            apply hcond
            rw [h1]
            exact ⟨(hx ▸ hgood).2, trivial⟩
          · exact h2 x hx
        · intro f d h
          rw [hstep] at h
          rcases (IH best).2 f d h with ⟨h1, h2⟩ | ⟨hg, hd, hc, l₁, l₂, hsp, hb1, hb2⟩
          · refine Or.inl ⟨h1, fun x hx hgood => ?_⟩
            rcases List.mem_cons.mp hx with hx | hx
            · subst hx
              by_contra hlt
              exact hcond ⟨hgood.2, by rw [h1]; exact lt_of_not_le hlt⟩
            · exact h2 x hx hgood
          · refine Or.inr ⟨hg, hd, hc, e :: l₁, l₂, by simp [hsp],
              fun x hx hgood => ?_, hb2⟩
            rcases List.mem_cons.mp hx with hx | hx
            · subst hx
              rcases hbest : best with _ | ⟨g, b⟩
              · rw [hbest] at hcond
                exact absurd ⟨hgood.2, trivial⟩ hcond
              · rw [hbest] at hc hcond
                have hble : b ≤ dist2 pos x.position := by
                  by_contra hblt
                  exact hcond ⟨hgood.2, lt_of_not_le hblt⟩
                exact lt_of_lt_of_le hc hble
            · exact hb1 x hx hgood

/-- Claim C2 counterexample: the claim says an enemy at distance not less than
    `maxRange` is never selected, but the starbase branch of
    `Game.findClosestEnemy` compares `distance <= entity.cannonRange`: a single
    alive enemy at distance exactly 5 from the origin with cannon range 5 IS
    selected (its squared distance equals `5²`, i.e. its distance is not less
    than the range). -/
theorem C2_counterexample :
    findClosestEnemy ⟨0, 0, 0⟩ true 5 [⟨⟨5, 0, 0⟩, true⟩] = some ⟨⟨5, 0, 0⟩, true⟩
    ∧ ¬ dist2 ⟨0, 0, 0⟩ (⟨5, 0, 0⟩ : Vec3) < 5 ^ 2 := by
  constructor
  · norm_num [findClosestEnemy, findClosestAux, distLe, dist2, Vec3.sub, Vec3.len2, closerThan]
  · norm_num [dist2, Vec3.sub, Vec3.len2]

/-- Claim C2 (amended): for the range-limited (starbase) query,
    `Game.findClosestEnemy` returns `none` iff no alive enemy is within
    `cannonRange` (in particular when the collection is empty), and otherwise
    returns an alive enemy within range (boundary inclusive: distance ≤ range,
    `<=` in the source, so an enemy exactly at `maxRange` can be selected —
    see `C2_counterexample`) of minimum Euclidean distance, equidistant ties
    resolved in favor of the first enemy in iteration order: it is strictly
    closer than every qualifying enemy before it in the list and at least as
    close as every qualifying enemy after it.  (Distances are compared in
    squared form; sqrt is monotone.) -/
theorem C2_amended (pos : Vec3) (range : ℚ) (es : List EnemyG) :
    (findClosestEnemy pos true range es = none ↔ ∀ e ∈ es, ¬ inRangeAlive pos range e)
    ∧ (∀ e, findClosestEnemy pos true range es = some e →
        inRangeAlive pos range e ∧
        ∃ l₁ l₂, es = l₁ ++ e :: l₂
          ∧ (∀ x ∈ l₁, inRangeAlive pos range x → dist2 pos e.position < dist2 pos x.position)
          ∧ (∀ x ∈ l₂, inRangeAlive pos range x → dist2 pos e.position ≤ dist2 pos x.position)) := by
  constructor
  · constructor
    · intro h
      rw [findClosestEnemy, Option.map_eq_none'] at h
      exact ((findClosestAux_spec pos range es none).1 h).2
    · intro hall
      rcases haux : findClosestAux pos true range es none with _ | ⟨f, d⟩
      · rw [findClosestEnemy, haux]; rfl
      · exfalso
        rcases (findClosestAux_spec pos range es none).2 f d haux with
          ⟨h1, _⟩ | ⟨hg, _, _, l₁, l₂, hsp, _, _⟩
        · exact Option.noConfusion h1
        · exact hall f (by rw [hsp]; exact List.mem_append_right _ (List.mem_cons_self f l₂)) hg
  · intro e he
    rw [findClosestEnemy, Option.map_eq_some'] at he
    obtain ⟨⟨f, d⟩, haux, hfst⟩ := he
    have hfe : f = e := hfst
    subst hfe
    rcases (findClosestAux_spec pos range es none).2 f d haux with ⟨h1, _⟩ | ⟨hg, hd, _, l₁, l₂, hsp, hb1, hb2⟩
    · exact Option.noConfusion h1
    · subst hd
      exact ⟨hg, l₁, l₂, hsp, hb1, hb2⟩

/-- Witness for C2: the spec's own test vector — enemies at distances 10 and 5
    from a weapon at the origin with range 20; the nearer enemy (5,0,0) is
    selected, and it qualifies, preceded only by strictly-farther enemies. -/
theorem C2_witness :
    inRangeAlive ⟨0, 0, 0⟩ 20 ⟨⟨5, 0, 0⟩, true⟩
    ∧ ∃ l₁ l₂,
        ([⟨⟨10, 0, 0⟩, true⟩, ⟨⟨5, 0, 0⟩, true⟩] : List EnemyG) = l₁ ++ ⟨⟨5, 0, 0⟩, true⟩ :: l₂
        ∧ (∀ x ∈ l₁, inRangeAlive ⟨0, 0, 0⟩ 20 x →
            dist2 ⟨0, 0, 0⟩ (⟨⟨5, 0, 0⟩, true⟩ : EnemyG).position < dist2 ⟨0, 0, 0⟩ x.position)
        ∧ (∀ x ∈ l₂, inRangeAlive ⟨0, 0, 0⟩ 20 x →
            dist2 ⟨0, 0, 0⟩ (⟨⟨5, 0, 0⟩, true⟩ : EnemyG).position ≤ dist2 ⟨0, 0, 0⟩ x.position) :=
  (C2_amended ⟨0, 0, 0⟩ 20 [⟨⟨10, 0, 0⟩, true⟩, ⟨⟨5, 0, 0⟩, true⟩]).2 ⟨⟨5, 0, 0⟩, true⟩
    (by norm_num [findClosestEnemy, findClosestAux, distLe, dist2, Vec3.sub, Vec3.len2, closerThan])

lemma catmullRomAxis_zero (a b c d : ℚ) : catmullRomAxis a b c d 0 = b := by
  unfold catmullRomAxis; ring

lemma catmullRomAxis_one (a b c d : ℚ) : catmullRomAxis a b c d 1 = c := by
  unfold catmullRomAxis; ring

lemma catmullRom_zero (p0 p1 p2 p3 : Vec3) :
    catmullRomInterpolation p0 p1 p2 p3 0 = p1 := by
  unfold catmullRomInterpolation
  rw [catmullRomAxis_zero, catmullRomAxis_zero, catmullRomAxis_zero]

lemma catmullRom_one (p0 p1 p2 p3 : Vec3) :
    catmullRomInterpolation p0 p1 p2 p3 1 = p2 := by
  unfold catmullRomInterpolation
  rw [catmullRomAxis_one, catmullRomAxis_one, catmullRomAxis_one]

lemma findSegment_at_zero (L : ℚ) (rest : List ℚ) (hL : 0 ≤ L) :
    findSegment 0 (L :: rest) 0 0 = (0, 0) := by
  cases rest with
  | nil => rw [findSegment, if_pos (by linarith)]
  | cons L2 t => rw [findSegment, if_pos (by linarith)]

lemma findSegment_at_total :
    ∀ (ls : List ℚ) (acc target : ℚ) (idx : ℕ), ls ≠ [] →
      (∀ L ∈ ls, 0 < L) → target = acc + ls.sum →
      findSegment target ls acc idx =
        (idx + (ls.length - 1), target - ls.getD (ls.length - 1) 0)
  | [], _, _, _, hne, _, _ => absurd rfl hne
  | [L], acc, target, idx, _, _, htarget => by
    rw [findSegment, if_pos (by rw [htarget, List.sum_cons, List.sum_nil]; linarith)]
    simp [htarget]
  | L :: L2 :: rest, acc, target, idx, _, hpos, htarget => by
    have hs : 0 < (L2 :: rest).sum :=
      List.sum_pos _ (fun x hx => hpos x (List.mem_cons_of_mem L hx)) (List.cons_ne_nil L2 rest)
    have hcond : ¬ target ≤ acc + L := by
      rw [htarget, List.sum_cons]
      have := hs
      intro hc
      linarith
    rw [findSegment, if_neg hcond]
    rw [findSegment_at_total (L2 :: rest) (acc + L) target (idx + 1)
      (List.cons_ne_nil L2 rest) (fun x hx => hpos x (List.mem_cons_of_mem L hx))
      (by rw [htarget, List.sum_cons]; ring)]
    rw [Prod.mk.injEq]
    refine ⟨?_, ?_⟩
    · simp only [List.length_cons]
      omega
    · rw [show (L :: L2 :: rest).length - 1 = ((L2 :: rest).length - 1) + 1 by
        simp only [List.length_cons]; omega, List.getD_cons_succ]

/-- Claim C3: for every path with at least 2 waypoints, positive segment
    lengths and the `createPath` invariants, the interpolator at progress 0
    returns exactly the first waypoint and at progress 1 exactly the last
    waypoint. -/
theorem C3_theorem (wp : List Vec3) (ls : List ℚ) (total : ℚ)
    (h2 : 2 ≤ wp.length) (hlen : ls.length = wp.length - 1)
    (hpos : ∀ L ∈ ls, 0 < L) (htot : total = ls.sum) :
    getPositionOnPath ⟨wp, ls, total⟩ 0 = wp.getD 0 Vec3.zero
    ∧ getPositionOnPath ⟨wp, ls, total⟩ 1 = wp.getD (wp.length - 1) Vec3.zero := by
  have hne : ls ≠ [] := by
    intro h
    rw [h] at hlen
    simp only [List.length_nil] at hlen
    omega
  have hlslen : 1 ≤ ls.length := by
    cases ls with
    | nil => exact absurd rfl hne
    | cons a t => simp
  constructor
  · obtain ⟨L, rest, rfl⟩ : ∃ L rest, ls = L :: rest := by
      cases ls with
      | nil => exact absurd rfl hne
      | cons a t => exact ⟨a, t, rfl⟩
    rw [getPositionOnPath, show max 0 (min 1 (0:ℚ)) = 0 by norm_num]
    simp only [getPositionOnPathCore]
    rw [zero_mul, findSegment_at_zero L rest (le_of_lt (hpos L (List.mem_cons_self L rest)))]
    dsimp only
    rw [show ((0:ℚ) - 0) / (L :: rest).getD 0 0 = 0 by rw [sub_zero, zero_div]]
    rw [catmullRom_zero]
  · rw [getPositionOnPath, show max 0 (min 1 (1:ℚ)) = 1 by norm_num]
    simp only [getPositionOnPathCore]
    rw [one_mul, findSegment_at_total ls 0 total 0 hne hpos (by rw [htot]; ring)]
    dsimp only
    have hlt : ls.length - 1 < ls.length := by omega
    have hlast : 0 < ls.getD (ls.length - 1) 0 := by
      rw [List.getD_eq_getElem ls 0 hlt]
      exact hpos _ (List.getElem_mem hlt)
    have h1 : ls.length - 1 + 1 = wp.length - 1 := by omega
    rw [zero_add, h1, min_self]
    rw [show min (wp.length - 1) (ls.length - 1 + 2) = wp.length - 1 from
      min_eq_left (by omega)]
    rw [show (total - (total - ls.getD (ls.length - 1) 0)) / ls.getD (ls.length - 1) 0 = 1 by
      rw [sub_sub_cancel]; exact div_self (ne_of_gt hlast)]
    rw [catmullRom_one]

/-- Witness for C3 at a concrete 2-waypoint path from the origin to (3,0,0)
    with segment length 3. -/
theorem C3_witness :
    (∀ L ∈ ([3] : List ℚ), 0 < L) ∧
      (getPositionOnPath ⟨[Vec3.zero, ⟨3, 0, 0⟩], [3], 3⟩ 0 = Vec3.zero
       ∧ getPositionOnPath ⟨[Vec3.zero, ⟨3, 0, 0⟩], [3], 3⟩ 1 = ⟨3, 0, 0⟩) :=
  ⟨by intro L hL; rw [List.mem_singleton.mp hL]; norm_num,
   C3_theorem [Vec3.zero, ⟨3, 0, 0⟩] [3] 3 (by norm_num) (by norm_num)
     (by intro L hL; rw [List.mem_singleton.mp hL]; norm_num) (by simp)⟩

lemma clamp01_idem (p : ℚ) : max 0 (min 1 (max 0 (min 1 p))) = max 0 (min 1 p) := by
  rcases le_total (min 1 p) 0 with h | h
  · rw [max_eq_left h]
    norm_num
  · rw [max_eq_right h, ← min_assoc, min_self]
    exact max_eq_right h

/-- Claim C7: out-of-range numeric inputs at the tick boundary are clamped
    rather than raised as errors: the path interpolator at any progress value
    (negative or above 1) returns the same position as at the progress clamped
    to [0,1] (and, being a total function, never throws); and the per-frame
    deltaTime entering the update is `min`-clamped so a single slow frame
    never produces a simulation step larger than 0.1 seconds — including for
    a negative raw deltaTime. -/
theorem C7_theorem (path : Path) (progress rawDelta : ℚ) :
    getPositionOnPath path progress = getPositionOnPath path (max 0 (min 1 progress))
    ∧ animateDeltaTime rawDelta ≤ 0.1 := by
  constructor
  · rw [getPositionOnPath, getPositionOnPath, clamp01_idem]
  · exact min_le_right _ _

lemma spliceFirst_of_not_mem : ∀ (l : List ℕ) (x : ℕ), x ∉ l → spliceFirst l x = l
  | [], _, _ => rfl
  | y :: rest, x, h => by
    by_cases hyx : y = x
    · subst hyx
      exact absurd (List.mem_cons_self y rest) h
    · rw [spliceFirst, if_neg hyx,
        spliceFirst_of_not_mem rest x (fun hm => h (List.mem_cons_of_mem y hm))]

lemma not_mem_spliceFirst_of_count :
    ∀ (l : List ℕ) (x : ℕ), l.count x ≤ 1 → x ∉ spliceFirst l x
  | [], x, _ => List.not_mem_nil x
  | y :: rest, x, h => by
    by_cases hyx : y = x
    · subst hyx
      rw [spliceFirst, if_pos rfl]
      intro hm
      rw [List.count_cons_self] at h
      have h0 : rest.count y = 0 := by omega
      exact (List.count_eq_zero.mp h0) hm
    · rw [spliceFirst, if_neg hyx]
      intro hm
      rcases List.mem_cons.mp hm with hx | hx
      · exact hyx hx.symm
      · refine not_mem_spliceFirst_of_count rest x ?_ hx
        rwa [List.count_cons_of_ne (fun hxy => hyx hxy.symm)] at h

lemma eraseIdx_of_len_le : ∀ (l : List ProjRec) (i : ℕ), l.length ≤ i → l.eraseIdx i = l
  | [], _, _ => List.eraseIdx_nil
  | a :: t, 0, h => by simp at h
  | a :: t, i + 1, h => by
    rw [List.eraseIdx_cons_succ, eraseIdx_of_len_le t i (by simpa using h)]

/-- Claim C8 counterexample: the claim says a second destroy/remove call on an
    already-destroyed entity leaves all collections unchanged, but
    `removeProjectile` splices its index argument unconditionally: with
    projectiles `[p1, p2]`, removing `p1` at index 0 leaves `[p2]`, and
    repeating the call for the already-dead `p1` at its old index 0 removes
    the innocent `p2` as well, leaving `[]` — the collection changed again. -/
theorem C8_counterexample :
    (removeProjectile [⟨1, true⟩, ⟨2, true⟩] ⟨1, true⟩ 0).2 = [⟨2, true⟩]
    ∧ (removeProjectile [⟨2, true⟩] ⟨1, false⟩ 0).2 = [] := ⟨rfl, rfl⟩

/-- Claim C8 (amended): destruction is idempotent for the entity-class
    `Entity.destroy` (a pure flag clear) and for the 2D-prototype
    `Enemy.destroy` (its `indexOf` guard makes the second call a no-op,
    provided each entity is registered at most once, as the constructor
    ensures); but `removeProjectile` is index-based and unguarded — it leaves
    the projectiles array unchanged only when the index is out of range, and
    otherwise removes whichever projectile currently occupies the index
    (`C8_counterexample`). -/
theorem C8_amended (g : Game2D) (eid : ℕ) (ent : EntityE) (ps : List ProjRec)
    (p : ProjRec) (i : ℕ)
    (hg : g.gameObjects.count eid ≤ 1) (he : g.enemies.count eid ≤ 1)
    (hi : ps.length ≤ i) :
    enemyDestroy (enemyDestroy g eid) eid = enemyDestroy g eid
    ∧ entityDestroy (entityDestroy ent) = entityDestroy ent
    ∧ (removeProjectile ps p i).2 = ps := by
  refine ⟨?_, rfl, ?_⟩
  · unfold enemyDestroy
    rw [spliceFirst_of_not_mem _ _ (not_mem_spliceFirst_of_count _ _ hg),
      spliceFirst_of_not_mem _ _ (not_mem_spliceFirst_of_count _ _ he)]
  · unfold removeProjectile
    exact eraseIdx_of_len_le ps i hi

/-- Witness for C8 at concrete registries. -/
theorem C8_witness :
    (([1, 2] : List ℕ).count 1 ≤ 1) ∧
      (enemyDestroy (enemyDestroy ⟨[1, 2], [1]⟩ 1) 1 = enemyDestroy ⟨[1, 2], [1]⟩ 1
       ∧ entityDestroy (entityDestroy ⟨true⟩) = entityDestroy ⟨true⟩
       ∧ (removeProjectile [⟨2, true⟩] ⟨1, false⟩ 5).2 = [⟨2, true⟩]) :=
  ⟨by decide,
   C8_amended ⟨[1, 2], [1]⟩ 1 ⟨true⟩ [⟨2, true⟩] ⟨1, false⟩ 5
     (by decide) (by decide) (by decide)⟩

lemma nearestPlatformD2_spec (pos : Vec3) :
    ∀ (ls : List Platform) (best : Option ℚ),
      (nearestPlatformD2 pos ls best = none → best = none ∧ ∀ q ∈ ls, q.alive = false)
      ∧ (∀ d, nearestPlatformD2 pos ls best = some d →
          (∀ q ∈ ls, q.alive = true → d ≤ dist2 pos q.position)
          ∧ (best = some d ∨ ∃ q ∈ ls, q.alive = true ∧ d = dist2 pos q.position)
          ∧ (∀ b, best = some b → d ≤ b))
  | [], best => by
    constructor
    · intro h
      simp only [nearestPlatformD2] at h
      exact ⟨h, fun q hq => absurd hq (List.not_mem_nil q)⟩
    · intro d h
      simp only [nearestPlatformD2] at h
      exact ⟨fun q hq => absurd hq (List.not_mem_nil q), Or.inl h,
        fun b hb => le_of_eq (Option.some.inj (h.symm.trans hb))⟩
  | q :: rest, best => by
    have IH := nearestPlatformD2_spec pos rest
    by_cases halive : q.alive = false
    · have hstep : nearestPlatformD2 pos (q :: rest) best = nearestPlatformD2 pos rest best := by
        simp [nearestPlatformD2, halive]
      constructor
      · intro h
        rw [hstep] at h
        obtain ⟨h1, h2⟩ := (IH best).1 h
        refine ⟨h1, fun x hx => ?_⟩
        rcases List.mem_cons.mp hx with hx | hx
        · rw [hx]; exact halive
        · exact h2 x hx
      · intro d h
        rw [hstep] at h
        obtain ⟨hb, hex, hmono⟩ := (IH best).2 d h
        refine ⟨fun x hx hax => ?_, ?_, hmono⟩
        · rcases List.mem_cons.mp hx with hx | hx
          · rw [hx] at hax; rw [halive] at hax; exact Bool.noConfusion hax
          · exact hb x hx hax
        · rcases hex with hex | ⟨x, hx, hax, hd⟩
          · exact Or.inl hex
          · exact Or.inr ⟨x, List.mem_cons_of_mem q hx, hax, hd⟩
    · have halive2 : q.alive = true := by
        simp at halive
        exact halive
      by_cases hcl : closerThanQ (dist2 pos q.position) best
      · have hstep : nearestPlatformD2 pos (q :: rest) best =
            nearestPlatformD2 pos rest (some (dist2 pos q.position)) := by
          simp [nearestPlatformD2, halive2, hcl]
        constructor
        · intro h
          rw [hstep] at h
          obtain ⟨h1, _⟩ := (IH (some (dist2 pos q.position))).1 h
          exact Option.noConfusion h1
        · intro d h
          rw [hstep] at h
          obtain ⟨hb, hex, hmono⟩ := (IH (some (dist2 pos q.position))).2 d h
          have hdq : d ≤ dist2 pos q.position := hmono _ rfl
          refine ⟨fun x hx hax => ?_, ?_, fun b hbb => ?_⟩
          · rcases List.mem_cons.mp hx with hx | hx
            · rw [hx]; exact hdq
            · exact hb x hx hax
          · rcases hex with hex | ⟨x, hx, hax, hd⟩
            · exact Or.inr ⟨q, List.mem_cons_self q rest, halive2, Option.some.inj hex.symm⟩
            · exact Or.inr ⟨x, List.mem_cons_of_mem q hx, hax, hd⟩
          · rw [hbb] at hcl
            exact le_of_lt (lt_of_le_of_lt hdq hcl)
      · have hstep : nearestPlatformD2 pos (q :: rest) best = nearestPlatformD2 pos rest best := by
          simp [nearestPlatformD2, halive2, hcl]
        constructor
        · intro h
          rw [hstep] at h
          obtain ⟨h1, _⟩ := (IH best).1 h
          rw [h1] at hcl
          exact absurd trivial hcl
        · intro d h
          rw [hstep] at h
          obtain ⟨hb, hex, hmono⟩ := (IH best).2 d h
          refine ⟨fun x hx hax => ?_, ?_, hmono⟩
          · rcases List.mem_cons.mp hx with hx | hx
            · rcases hbest : best with _ | b0
              · rw [hbest] at hcl; exact absurd trivial hcl
              · rw [hbest] at hcl
                have hble : b0 ≤ dist2 pos q.position := le_of_not_lt hcl
                rw [hx]
                exact le_trans (hmono b0 hbest) hble
            · exact hb x hx hax
          · rcases hex with hex | ⟨x, hx, hax, hd⟩
            · exact Or.inl hex
            · exact Or.inr ⟨x, List.mem_cons_of_mem q hx, hax, hd⟩

lemma checkPlatformOverlap_false_iff (platforms : List Platform) (pos : Vec3) :
    checkPlatformOverlap platforms pos = false ↔
      ∀ q ∈ platforms, q.alive = true →
        MIN_PLATFORM_SPACING ^ 2 ≤ dist2 pos q.position := by
  rcases hres : nearestPlatformD2 pos platforms none with _ | d
  · have hco : checkPlatformOverlap platforms pos = false := by
      unfold checkPlatformOverlap
      rw [hres]
    rw [hco]
    constructor
    · intro _ q hq halive
      obtain ⟨_, hdead⟩ := (nearestPlatformD2_spec pos platforms none).1 hres
      rw [hdead q hq] at halive
      exact Bool.noConfusion halive
    · intro _
      rfl
  · have hco : checkPlatformOverlap platforms pos = decide (d < MIN_PLATFORM_SPACING ^ 2) := by
      unfold checkPlatformOverlap
      rw [hres]
    rw [hco]
    constructor
    · intro hfalse q hq halive
      have hnotlt : ¬ (d < MIN_PLATFORM_SPACING ^ 2) := of_decide_eq_false hfalse
      have hdq := ((nearestPlatformD2_spec pos platforms none).2 d hres).1 q hq halive
      exact le_trans (le_of_not_lt hnotlt) hdq
    · intro hall
      obtain ⟨_, hex, _⟩ := (nearestPlatformD2_spec pos platforms none).2 d hres
      rcases hex with hbest | ⟨q, hq, halive, hd⟩
      · exact Option.noConfusion hbest
      · exact decide_eq_false (by rw [hd]; exact not_lt.mpr (hall q hq halive))

lemma isValidPlacementPosition_true_iff (platforms : List Platform) (pos : Vec3) :
    (isValidPlacementPosition platforms pos).1 = true ↔
      (MIN_PLACEMENT_DISTANCE ^ 2 ≤ horizontalDist2 pos
       ∧ horizontalDist2 pos ≤ MAX_PLACEMENT_DISTANCE ^ 2
       ∧ checkPlatformOverlap platforms pos = false) := by
  unfold isValidPlacementPosition
  by_cases h1 : horizontalDist2 pos < MIN_PLACEMENT_DISTANCE ^ 2
  · rw [if_pos h1]
    constructor
    · intro h; exact Bool.noConfusion h
    · intro ⟨ha, _⟩; exact absurd h1 (not_lt.mpr ha)
  · rw [if_neg h1]
    by_cases h2 : MAX_PLACEMENT_DISTANCE ^ 2 < horizontalDist2 pos
    · rw [if_pos h2]
      constructor
      · intro h; exact Bool.noConfusion h
      · intro ⟨_, hb, _⟩; exact absurd h2 (not_lt.mpr hb)
    · rw [if_neg h2]
      by_cases h3 : checkPlatformOverlap platforms pos = true
      · rw [if_pos h3]
        constructor
        · intro h; exact Bool.noConfusion h
        · intro ⟨_, _, hc⟩
          rw [hc] at h3
          exact Bool.noConfusion h3
      · rw [if_neg h3]
        constructor
        · intro _
          exact ⟨not_lt.mp h1, not_lt.mp h2, Bool.eq_false_iff.mpr h3⟩
        · intro _
          rfl

/-- Claim C10: `confirmPlacement` adds a platform only when the preview
    position is valid — horizontal distance from the origin at least 15 and at
    most 70 units, and at least 10 units from every live platform (squared
    comparisons; sqrt is monotone) — appending exactly one platform; in every
    other case it returns `none` and leaves the platforms collection
    unchanged. -/
theorem C10_theorem (st : PlacementState) (platforms : List Platform) :
    (∀ ps2, confirmPlacement st platforms = (none, ps2) → ps2 = platforms)
    ∧ (∀ p ps2, confirmPlacement st platforms = (some p, ps2) →
        MIN_PLACEMENT_DISTANCE ^ 2 ≤ horizontalDist2 st.previewPosition
        ∧ horizontalDist2 st.previewPosition ≤ MAX_PLACEMENT_DISTANCE ^ 2
        ∧ (∀ q ∈ platforms, q.alive = true →
            MIN_PLATFORM_SPACING ^ 2 ≤ dist2 st.previewPosition q.position)
        ∧ ps2 = platforms ++ [p]) := by
  by_cases hguard : st.active = false ∨ st.selectedType = none
  · have heq : confirmPlacement st platforms = (none, platforms) := by
      rw [confirmPlacement, if_pos hguard]
    constructor
    · intro ps2 h
      rw [heq] at h
      exact ((Prod.mk.injEq .. ▸ h).2).symm
    · intro p ps2 h
      rw [heq] at h
      exact absurd (Prod.mk.injEq .. ▸ h).1 (fun hc => Option.noConfusion hc)
  · by_cases hvalid : (isValidPlacementPosition platforms st.previewPosition).1 = false
    · have heq : confirmPlacement st platforms = (none, platforms) := by
        rw [confirmPlacement, if_neg hguard, if_pos hvalid]
      constructor
      · intro ps2 h
        rw [heq] at h
        exact ((Prod.mk.injEq .. ▸ h).2).symm
      · intro p ps2 h
        rw [heq] at h
        exact absurd (Prod.mk.injEq .. ▸ h).1 (fun hc => Option.noConfusion hc)
    · obtain ⟨t, hsel⟩ : ∃ t, st.selectedType = some t := by
        rcases hst : st.selectedType with _ | t
        · exact absurd (Or.inr hst) hguard
        · exact ⟨t, rfl⟩
      have htrue : (isValidPlacementPosition platforms st.previewPosition).1 = true := by
        rcases hb : (isValidPlacementPosition platforms st.previewPosition).1 with _ | _
        · exact absurd hb hvalid
        · rfl
      obtain ⟨hmin, hmax, hoverlap⟩ :=
        (isValidPlacementPosition_true_iff platforms st.previewPosition).mp htrue
      have heq : confirmPlacement st platforms =
          (some (createPlatform t st.previewPosition platforms).1,
           (createPlatform t st.previewPosition platforms).2) := by
        rw [confirmPlacement, if_neg hguard, if_neg hvalid]
        rw [hsel]
      constructor
      · intro ps2 h
        rw [heq] at h
        exact absurd (Prod.mk.injEq .. ▸ h).1 (fun hc => Option.noConfusion hc)
      · intro p ps2 h
        rw [heq] at h
        obtain ⟨hp, hps⟩ := Prod.mk.injEq .. ▸ h
        refine ⟨hmin, hmax,
          (checkPlatformOverlap_false_iff platforms st.previewPosition).mp hoverlap, ?_⟩
        rw [← hps, ← Option.some.inj hp]
        rfl

/-- Witness for C10: with an active `laserBattery` placement previewed at
    (20,0,0) and no existing platforms, confirmation succeeds, the position
    satisfies the distance band, and exactly one platform is appended. -/
theorem C10_witness :
    MIN_PLACEMENT_DISTANCE ^ 2 ≤ horizontalDist2 ⟨20, 0, 0⟩
    ∧ horizontalDist2 ⟨20, 0, 0⟩ ≤ MAX_PLACEMENT_DISTANCE ^ 2
    ∧ (∀ q ∈ ([] : List Platform), q.alive = true →
        MIN_PLATFORM_SPACING ^ 2 ≤ dist2 ⟨20, 0, 0⟩ q.position)
    ∧ [(⟨"laserBattery", ⟨20, 0, 0⟩, true, 0⟩ : Platform)] =
        [] ++ [⟨"laserBattery", ⟨20, 0, 0⟩, true, 0⟩] :=
  (C10_theorem ⟨true, some "laserBattery", ⟨20, 0, 0⟩⟩ []).2
    ⟨"laserBattery", ⟨20, 0, 0⟩, true, 0⟩ [⟨"laserBattery", ⟨20, 0, 0⟩, true, 0⟩]
    (by norm_num [confirmPlacement, isValidPlacementPosition, checkPlatformOverlap,
      nearestPlatformD2, horizontalDist2, MIN_PLACEMENT_DISTANCE, MAX_PLACEMENT_DISTANCE,
      createPlatform, Option.some_ne_none])

end SolarDefense

